import Mathlib

/-!
Verification of the MUX2001 REVA driver (`MUX2001_REVA.py`).

The driver is shallowly embedded:
* a card's mutable `spi_data` field is a `List Nat` of bytes; `MuxCard.set_ch`
  starts by calling `clear()`, so it is a pure function of the pin pair;
* pin and index arguments are Python integers, modelled as `Int`
  (`Int.emod` matches Python's `%` on negative operands, and Python's
  `int((x)/2)` equals `Nat` division once the guard `1 <= in_p` holds,
  hence `(in_p - 1).toNat / 2`);
* Python list indexing `l[i]` (negative indices count from the end, out of
  range raises `IndexError`) is modelled by `pyIndex`; methods that can raise
  return `Except σ α`, the `error` case carrying the state as mutated up to
  the raise;
* the injected hardware callbacks (`write_rclk_fn`, `write_spi_bytes_fn`,
  `read_nmr_fn`) are modelled by an event trace: each commit records the
  latch writes, the two sleeps, the single SPI transfer and the single nMR
  sample; the boolean value returned by `read_nmr_fn` is a parameter.
-/

/-- One observable call to an injected hardware function during a commit. -/
inductive Event where
  /-- `write_rclk(state)` on the group with the given 0-based position. -/
  | rclk : Nat → Nat → Event
  /-- `time.sleep`, in milliseconds. -/
  | sleep : Nat → Event
  /-- `write_spi_bytes(data)`, the single SPI transfer. -/
  | spi : List Nat → Event
  /-- `read_nmr()`, the single fault-sense sample, with the value it returned. -/
  | nmr : Bool → Event
deriving DecidableEq, Repr

deriving instance DecidableEq for Except

/-- Python list indexing: `l[i]` for a list of length `len`.
Negative indices count from the end; a resolved index out of
`[0, len)` raises `IndexError` (`none`). -/
def pyIndex (len : Nat) (i : Int) : Option Nat :=
  let j : Int := if i < 0 then i + len else i
  if 0 ≤ j ∧ j < (len : Int) then some j.toNat else none

/-- The constant `self.lut = [0x80, 0x40, 0x10, 0x08, 0x04]` of `MuxCard.__init__`. -/
def lut : List Nat := [0x80, 0x40, 0x10, 0x08, 0x04]

/-- Model of `MuxCard.clear`: `self.spi_data = [0, 0, 0]`. -/
def MuxCard.clearImage : List Nat := [0, 0, 0]

/-- Model of `MuxCard.set_ch(in_p, in_n)`: clears the 3-byte image, then sets bits for
the current channel, a 2-pole differential pair, or a single-ended channel.
`lut` indexing only happens under guards that keep the index below 5. -/
def MuxCard.set_ch (in_p in_n : Int) : List Nat :=
  if in_p = 21 then  -- current channel
    MuxCard.clearImage.set 1 0x02
  else if Int.emod in_p 2 = 1 ∧ in_n = in_p + 1 ∧ 1 ≤ in_p ∧ in_p ≤ 19 then
    -- 2-pole measurement
    let spi_data := MuxCard.clearImage.set 2 0x10  -- set AB_TO_VCOM
    if 1 ≤ in_p ∧ in_p ≤ 10 then
      spi_data.set 0 (lut.getD ((in_p - 1).toNat / 2) 0)
    else if 11 ≤ in_p ∧ in_p ≤ 19 then
      spi_data.set 1 (lut.getD ((in_p - 11).toNat / 2) 0)
    else spi_data
  else if in_n = 0 ∧ 1 ≤ in_p ∧ in_p ≤ 20 then
    -- single-ended measurement
    let spi_data :=
      if Int.emod in_p 2 = 1 then MuxCard.clearImage.set 2 0x08
      else MuxCard.clearImage.set 2 0x04
    if 1 ≤ in_p ∧ in_p ≤ 10 then
      spi_data.set 0 (lut.getD ((in_p - 1).toNat / 2) 0)
    else if 11 ≤ in_p ∧ in_p ≤ 20 then
      spi_data.set 1 (lut.getD ((in_p - 11).toNat / 2) 0)
    else spi_data
  else
    MuxCard.clearImage

/-- The single-ended image as the specification words it: byte 2 is `0x08`
for an odd positive pin and `0x04` for an even one, and the 5-entry table
bit goes in byte 0 (pins 1–10) or byte 1 (pins 11–20). -/
def singleEndedSpecImage (p : Int) : List Nat :=
  let table : List Nat := [0x80, 0x40, 0x10, 0x08, 0x04]
  let b2 : Nat := if Int.emod p 2 = 1 then 0x08 else 0x04
  if p ≤ 10 then [table.getD ((p - 1).toNat / 2) 0, 0, b2]
  else [0, table.getD ((p - 11).toNat / 2) 0, b2]

/-- The differential image as the specification words it: byte 2 is `0x10`,
and the 5-entry table bit goes in byte 0 (pins 1–10) or byte 1 (pins 11–19). -/
def differentialSpecImage (p : Int) : List Nat :=
  let table : List Nat := [0x80, 0x40, 0x10, 0x08, 0x04]
  if p ≤ 10 then [table.getD ((p - 1).toNat / 2) 0, 0, 0x10]
  else [0, table.getD ((p - 11).toNat / 2) 0, 0x10]

/-- State of a `MuxCardGroup`: the configured card count, the cards' 3-byte
images, and the group's packed SPI buffer.  The injected `write_rclk_fn`
is not state; its invocations appear in the commit event trace. -/
structure MuxCardGroup where
  num_cards : Nat
  cards : List (List Nat)
  spi_data : List Nat
deriving DecidableEq, Repr

/-- Placeholder group used only as the (unreachable) `getD` default. -/
def MuxCardGroup.dummy : MuxCardGroup := ⟨0, [], []⟩

/-- Model of `MuxCardGroup.__init__(num_cards, write_rclk_fn)`:
`self.spi_data = [0] * 3 * num_cards` and `num_cards` fresh cards. -/
def MuxCardGroup.init (num_cards : Nat) : MuxCardGroup :=
  { num_cards := num_cards
    cards := List.replicate num_cards MuxCard.clearImage
    spi_data := List.replicate (3 * num_cards) 0 }

/-- One iteration of the loop in `MuxCardGroup.clear`:
`self.cards[i].clear()` then `self.spi_data.extend(self.cards[i].spi_data)`. -/
def MuxCardGroup.clearStep (s : MuxCardGroup) (i : Nat) : MuxCardGroup :=
  let cards := s.cards.set i MuxCard.clearImage
  { s with cards := cards, spi_data := s.spi_data ++ cards.getD i [] }

/-- Model of `MuxCardGroup.clear`: `self.spi_data = []`, then for each
`i in range(self.num_cards)` clear card `i` and extend the buffer. -/
def MuxCardGroup.clear (g : MuxCardGroup) : MuxCardGroup :=
  (List.range g.num_cards).foldl MuxCardGroup.clearStep { g with spi_data := [] }

/-- The repacking loop shared by `MuxCardGroup.set_ch`:
`self.spi_data = []`, then extend with each card's bytes in order. -/
def MuxCardGroup.pack (cards : List (List Nat)) (num_cards : Nat) : List Nat :=
  (List.range num_cards).foldl (fun acc i => acc ++ cards.getD i []) []

/-- Model of `MuxCardGroup.set_ch(card, in_p, in_n)`: `self.clear()`, then
`self.cards[card].set_ch(in_p, in_n)` (which can raise `IndexError`; the
`error` case carries the already-cleared state), then repack the buffer. -/
def MuxCardGroup.set_ch (g : MuxCardGroup) (card in_p in_n : Int) :
    Except MuxCardGroup MuxCardGroup :=
  let g1 := g.clear
  match pyIndex g1.cards.length card with
  | none => Except.error g1
  | some j =>
    let g2 := { g1 with cards := g1.cards.set j (MuxCard.set_ch in_p in_n) }
    Except.ok { g2 with spi_data := MuxCardGroup.pack g2.cards g2.num_cards }

/-- State of a `MuxStack`: the registered card groups and the packed SPI buffer
(`self.spi_data`, assigned inside `_write_spi`).  The injected
`read_nmr_fn` and `write_spi_bytes_fn` are not state; the nMR value read
during a commit is the `nmr` parameter of the operations below. -/
structure MuxStack where
  card_groups : List MuxCardGroup
  spi_data : List Nat
deriving DecidableEq, Repr

/-- Model of `MuxStack.__init__`: empty group list (no SPI buffer written yet). -/
def MuxStack.init : MuxStack := ⟨[], []⟩

/-- Model of `MuxStack.add_card_group(num_cards, write_rclk_fn)`: append a group. -/
def MuxStack.add_card_group (s : MuxStack) (num_cards : Nat) : MuxStack :=
  { s with card_groups := s.card_groups ++ [MuxCardGroup.init num_cards] }

/-- Model of `MuxStack._write_spi`: rebuild `self.spi_data` from the groups while
driving every `R_CLK` low, sleep 40 ms, write the SPI bytes once, drive
every `R_CLK` high, sleep 5 ms, then sample nMR once and return 1 (truthy)
or 0.  The returned trace lists the hardware calls in order. -/
def MuxStack.write_spi (s : MuxStack) (nmr : Bool) :
    MuxStack × List Event × Nat :=
  let assembled : List Nat × List Event :=
    (List.range s.card_groups.length).foldl
      (fun acc i =>
        (acc.1 ++ (s.card_groups.getD i MuxCardGroup.dummy).spi_data,
          acc.2 ++ [Event.rclk i 0]))
      ([], [])
  let events : List Event :=
    assembled.2 ++ [Event.sleep 40, Event.spi assembled.1]
      ++ (List.range s.card_groups.length).map (fun i => Event.rclk i 1)
      ++ [Event.sleep 5, Event.nmr nmr]
  ({ s with spi_data := assembled.1 }, events, if nmr then 1 else 0)

/-- Model of `MuxStack.clear_all`: clear every group, then `return self._write_spi()`. -/
def MuxStack.clear_all (s : MuxStack) (nmr : Bool) :
    MuxStack × List Event × Nat :=
  MuxStack.write_spi { s with card_groups := s.card_groups.map MuxCardGroup.clear } nmr

/-- Model of `MuxStack.clear_group(group)`: `i = group - 1`,
`self._card_groups[i].clear()` (Python indexing: negative wraps, out of
range raises), then `return self._write_spi()`. -/
def MuxStack.clear_group (s : MuxStack) (group : Int) (nmr : Bool) :
    Except MuxStack (MuxStack × List Event × Nat) :=
  let i := group - 1
  match pyIndex s.card_groups.length i with
  | none => Except.error s
  | some gi =>
    Except.ok (MuxStack.write_spi
      { s with card_groups :=
          s.card_groups.set gi (s.card_groups.getD gi MuxCardGroup.dummy).clear } nmr)

/-- Model of `MuxStack.set_ch(ch_tuple)`: resolve the 1-indexed group and card,
delegate to the group's `set_ch`, then call `self._write_spi()` WITHOUT
returning its value — the method body has no `return` statement, so the
Python call evaluates to `None`, modelled as the `none` in the result. -/
def MuxStack.set_ch (s : MuxStack) (ch_tuple : Int × Int × Int × Int) (nmr : Bool) :
    Except MuxStack (MuxStack × List Event × Option Nat) :=
  let group := ch_tuple.1 - 1
  let card := ch_tuple.2.1 - 1
  let in_p := ch_tuple.2.2.1
  let in_n := ch_tuple.2.2.2
  match pyIndex s.card_groups.length group with
  | none => Except.error s
  | some gi =>
    match (s.card_groups.getD gi MuxCardGroup.dummy).set_ch card in_p in_n with
    | Except.error g1 =>
      Except.error { s with card_groups := s.card_groups.set gi g1 }
    | Except.ok g2 =>
      let s1 := { s with card_groups := s.card_groups.set gi g2 }
      let committed := MuxStack.write_spi s1 nmr
      Except.ok (committed.1, committed.2.1, none)

/-- The hardware-call trace of one commit (`_write_spi`): all `R_CLK` lines
low, 40 ms settle, one SPI transfer of the whole payload, all `R_CLK` lines
high, 5 ms settle, one nMR sample. -/
def commitTrace (n : Nat) (payload : List Nat) (nmr : Bool) : List Event :=
  (List.range n).map (fun i => Event.rclk i 0)
    ++ [Event.sleep 40, Event.spi payload]
    ++ (List.range n).map (fun i => Event.rclk i 1)
    ++ [Event.sleep 5, Event.nmr nmr]

/-- Structural invariant established by `MuxCardGroup.__init__`: the card
list has exactly the configured number of cards. -/
def MuxStack.wf (s : MuxStack) : Prop :=
  ∀ g ∈ s.card_groups, g.cards.length = g.num_cards

/-- A group's packed buffer is the concatenation of its cards' images. -/
def MuxCardGroup.packedOK (g : MuxCardGroup) : Prop :=
  g.spi_data = g.cards.flatten

/-- The payload invariant of the claims: the stack buffer is the
concatenation of the group buffers in declaration order, and every group
buffer is the concatenation of its cards' images in declaration order. -/
def MuxStack.payloadOK (s : MuxStack) : Prop :=
  s.spi_data = (s.card_groups.map (fun g => g.spi_data)).flatten ∧
    ∀ g ∈ s.card_groups, g.packedOK

/-- Total configured card count of the stack. -/
def MuxStack.totalCards (s : MuxStack) : Nat :=
  (s.card_groups.map (fun g => g.num_cards)).sum

/-- Concrete demo topology: group 1 with two cards, group 2 with one card. -/
def demoStack : MuxStack := (MuxStack.init.add_card_group 2).add_card_group 1

/-- State of `demoStack` after `set_ch((1, 1, 5, 0))`: group 1, card 1 holds the
single-ended image `[0x10, 0x00, 0x08]` for pin 5. -/
def demoSelected : MuxStack :=
  match demoStack.set_ch (1, 1, 5, 0) true with
  | Except.ok r => r.1
  | Except.error s => s

/-- Minimal demo topology: a single group with a single card. -/
def demoOne : MuxStack := MuxStack.init.add_card_group 1

/-! ### Helper lemmas about the loops of the driver -/

/-- Setting the element right after a prefix keeps the prefix intact. -/
theorem list_set_at_append (l₁ l₂ : List α) (a : α) :
    (l₁ ++ l₂).set l₁.length a = l₁ ++ l₂.set 0 a := by
  induction l₁ with
  | nil => simp
  | cons x xs ih => simp [ih]

/-- The element right after a prefix of an append. -/
theorem list_getD_at_append (l₁ l₂ : List α) (a d : α) :
    (l₁ ++ a :: l₂).getD l₁.length d = a := by
  induction l₁ with
  | nil => simp
  | cons x xs ih => simpa using ih

/-- Accumulating `extend` over a list is concatenation. -/
theorem list_foldl_extend (l : List α) (f : α → List β) (a : List β) :
    l.foldl (fun acc x => acc ++ f x) a = a ++ (l.map f).flatten := by
  induction l generalizing a with
  | nil => simp
  | cons x t ih => simp [ih]

/-- Accumulating `extend` together with a one-event log. -/
theorem list_foldl_extend_log (l : List α) (f : α → List β) (g : α → γ)
    (a : List β) (b : List γ) :
    l.foldl (fun acc x => (acc.1 ++ f x, acc.2 ++ [g x])) (a, b)
      = (a ++ (l.map f).flatten, b ++ l.map g) := by
  induction l generalizing a b with
  | nil => simp
  | cons x t ih => simp [ih]

/-- Reading every position of a list back by index gives the list. -/
theorem list_map_getD_range (l : List α) (d : α) :
    (List.range l.length).map (fun i => l.getD i d) = l := by
  induction l with
  | nil => simp
  | cons x t ih =>
    rw [List.length_cons, List.range_succ_eq_map, List.map_cons, List.map_map]
    have hc : ((fun i => (x :: t).getD i d) ∘ Nat.succ) = (fun i => t.getD i d) := rfl
    rw [hc, ih]
    rfl

/-- Lemma `list_set_at_append` specialized to a `replicate` prefix. -/
theorem list_set_replicate_append (k : Nat) (z : α) (l₂ : List α) (a : α) :
    (List.replicate k z ++ l₂).set k a = List.replicate k z ++ l₂.set 0 a := by
  have h := list_set_at_append (List.replicate k z) l₂ a
  rwa [List.length_replicate] at h

/-- Lemma `list_getD_at_append` specialized to a `replicate` prefix. -/
theorem list_getD_replicate_append (k : Nat) (z : α) (l₂ : List α) (a d : α) :
    (List.replicate k z ++ a :: l₂).getD k d = a := by
  have h := list_getD_at_append (List.replicate k z) l₂ a d
  rwa [List.length_replicate] at h

/-- The index-clearing loop of `MuxCardGroup.clear`, characterized. -/
theorem muxCardGroup_clear_loop (n : Nat) (s : MuxCardGroup)
    (h : n ≤ s.cards.length) :
    (List.range n).foldl MuxCardGroup.clearStep s =
      { s with
        cards := List.replicate n MuxCard.clearImage ++ s.cards.drop n
        spi_data := s.spi_data ++ List.replicate (3 * n) 0 } := by
  induction n with
  | zero => simp
  | succ k ih =>
    rw [List.range_succ, List.foldl_append, ih (Nat.le_of_succ_le h)]
    have hk : k < s.cards.length := h
    show MuxCardGroup.clearStep _ k = _
    unfold MuxCardGroup.clearStep
    dsimp only
    have hdrop : s.cards.drop k = s.cards[k] :: s.cards.drop (k + 1) :=
      List.drop_eq_getElem_cons hk
    have hset :
        (List.replicate k MuxCard.clearImage ++ s.cards.drop k).set k
            MuxCard.clearImage
          = List.replicate (k + 1) MuxCard.clearImage ++ s.cards.drop (k + 1) := by
      rw [list_set_replicate_append, hdrop, List.set_cons_zero,
        List.replicate_succ', List.append_assoc, List.singleton_append]
    rw [hset]
    have hget :
        (List.replicate (k + 1) MuxCard.clearImage ++ s.cards.drop (k + 1)).getD k []
          = MuxCard.clearImage := by
      rw [List.replicate_succ', List.append_assoc, List.singleton_append,
        list_getD_replicate_append]
    rw [hget]
    have harith : 3 * (k + 1) = 3 * k + 3 := by ring
    have hrep : List.replicate (3 * k + 3) (0 : Nat)
        = List.replicate (3 * k) 0 ++ MuxCard.clearImage := by
      rw [List.replicate_add]
      rfl
    rw [harith, hrep, ← List.append_assoc]

/-- Running `MuxCardGroup.clear` on a well-formed group: every card image and the
packed buffer become all-zero. -/
theorem muxCardGroup_clear_eq (g : MuxCardGroup)
    (h : g.cards.length = g.num_cards) :
    g.clear =
      { num_cards := g.num_cards
        cards := List.replicate g.num_cards MuxCard.clearImage
        spi_data := List.replicate (3 * g.num_cards) 0 } := by
  unfold MuxCardGroup.clear
  rw [muxCardGroup_clear_loop g.num_cards _ (by simp [h])]
  have hdrop : ({ g with spi_data := ([] : List Nat) } : MuxCardGroup).cards.drop
      g.num_cards = [] := by
    simp [← h]
  rw [hdrop]
  simp

/-- The repacking loop is concatenation once the card count matches. -/
theorem muxCardGroup_pack_eq (cards : List (List Nat)) (n : Nat)
    (h : cards.length = n) :
    MuxCardGroup.pack cards n = cards.flatten := by
  unfold MuxCardGroup.pack
  subst h
  rw [list_foldl_extend, List.nil_append, list_map_getD_range]

/-- Running `MuxCardGroup.set_ch` on a well-formed group, characterized: clear all
cards, install the encoder image on the resolved card, repack. -/
theorem muxCardGroup_set_ch_eq (g : MuxCardGroup)
    (h : g.cards.length = g.num_cards) (card in_p in_n : Int) :
    g.set_ch card in_p in_n =
      match pyIndex g.num_cards card with
      | none => Except.error g.clear
      | some j =>
        Except.ok
          { num_cards := g.num_cards
            cards := (List.replicate g.num_cards MuxCard.clearImage).set j
              (MuxCard.set_ch in_p in_n)
            spi_data := ((List.replicate g.num_cards MuxCard.clearImage).set j
              (MuxCard.set_ch in_p in_n)).flatten } := by
  unfold MuxCardGroup.set_ch
  rw [muxCardGroup_clear_eq g h]
  simp only [List.length_replicate]
  cases hj : pyIndex g.num_cards card with
  | none => rfl
  | some j =>
    dsimp only
    rw [muxCardGroup_pack_eq _ _ (by simp)]

/-- The commit `_write_spi`, characterized: the new stack buffer is the concatenation
of the group buffers, the hardware trace is `commitTrace`, and the returned
value is 1 exactly when the nMR sample was truthy. -/
theorem muxStack_write_spi_eq (s : MuxStack) (nmr : Bool) :
    s.write_spi nmr =
      ({ s with spi_data := (s.card_groups.map (fun g => g.spi_data)).flatten },
        commitTrace s.card_groups.length
          ((s.card_groups.map (fun g => g.spi_data)).flatten) nmr,
        if nmr then 1 else 0) := by
  unfold MuxStack.write_spi commitTrace
  rw [list_foldl_extend_log]
  have hmap :
      (List.range s.card_groups.length).map
          (fun i => (s.card_groups.getD i MuxCardGroup.dummy).spi_data)
        = s.card_groups.map (fun g => g.spi_data) := by
    have hc :
        (fun i => (s.card_groups.getD i MuxCardGroup.dummy).spi_data)
          = ((fun g => g.spi_data) ∘ fun i => s.card_groups.getD i MuxCardGroup.dummy) :=
      rfl
    rw [hc, ← List.map_map, list_map_getD_range]
  rw [hmap]
  simp

/-- A successful Python index lookup lands strictly inside the list. -/
theorem pyIndex_lt (len : Nat) (i : Int) (j : Nat)
    (h : pyIndex len i = some j) : j < len := by
  simp only [pyIndex] at h
  split at h <;> split at h <;>
    first
      | (injection h with hj; omega)
      | exact absurd h (by simp)

/-- Reading `getD` at an in-range position gives a member of the list. -/
theorem list_getD_mem (l : List α) (i : Nat) (d : α) (h : i < l.length) :
    l.getD i d ∈ l := by
  rw [List.getD_eq_getElem?_getD, List.getElem?_eq_getElem h]
  exact List.getElem_mem h

/-- Concatenating `n` cleared card images gives `3 * n` zero bytes. -/
theorem flatten_replicate_clearImage (n : Nat) :
    (List.replicate n MuxCard.clearImage).flatten = List.replicate (3 * n) 0 := by
  induction n with
  | zero => simp
  | succ k ih =>
    rw [List.replicate_succ, List.flatten_cons, ih]
    have h3 : 3 * (k + 1) = 3 + 3 * k := by ring
    rw [h3, List.replicate_add]
    rfl

/-- The encoder always produces a 3-byte image. -/
theorem muxCard_set_ch_length (in_p in_n : Int) :
    (MuxCard.set_ch in_p in_n).length = 3 := by
  unfold MuxCard.set_ch
  split_ifs <;> simp [MuxCard.clearImage]

/-- Updating one position of a list whose members all fail the predicate
leaves at most one satisfying member. -/
theorem list_countP_set_le_one (q : α → Bool) :
    ∀ (l : List α) (j : Nat) (e : α),
      (∀ c ∈ l, q c = false) → (l.set j e).countP q ≤ 1 := by
  intro l
  induction l with
  | nil =>
    intro j e _
    simp
  | cons a t ih =>
    intro j e hl
    have ht : ∀ c ∈ t, q c = false := fun c hc => hl c (List.mem_cons_of_mem a hc)
    have htz : t.countP q = 0 :=
      List.countP_eq_zero.mpr (fun c hc => by simp [ht c hc])
    cases j with
    | zero =>
      rw [List.set_cons_zero, List.countP_cons, htz]
      split <;> omega
    | succ k =>
      rw [List.set_cons_succ, List.countP_cons]
      have hrec := ih k e ht
      simp only [hl a (List.mem_cons_self a t), Bool.false_eq_true, if_false, add_zero]
      exact hrec

/-- In a cleared card list with one position overwritten, every other
position still holds the cleared image. -/
theorem list_getD_set_replicate (n j k : Nat) (z e : α) (hk : k ≠ j) :
    ((List.replicate n z).set j e).getD k z = z := by
  rw [List.getD_eq_getElem?_getD, List.getElem?_set_ne (Ne.symm hk),
    List.getElem?_replicate]
  split <;> rfl

/-- The length of a concatenation of 3-byte images. -/
theorem flatten_length_three (l : List (List Nat)) (h : ∀ c ∈ l, c.length = 3) :
    l.flatten.length = 3 * l.length := by
  induction l with
  | nil => simp
  | cons c t ih =>
    have hc := h c (List.mem_cons_self c t)
    have ht := ih (fun x hx => h x (List.mem_cons_of_mem c hx))
    simp only [List.flatten_cons, List.length_append, List.length_cons, hc, ht]
    ring

/-- The operation `clear_all`, characterized via `muxStack_write_spi_eq`. -/
theorem muxStack_clear_all_eq (s : MuxStack) (nmr : Bool) :
    s.clear_all nmr =
      ({ card_groups := s.card_groups.map MuxCardGroup.clear
         spi_data :=
           ((s.card_groups.map MuxCardGroup.clear).map (fun g => g.spi_data)).flatten },
        commitTrace s.card_groups.length
          (((s.card_groups.map MuxCardGroup.clear).map (fun g => g.spi_data)).flatten) nmr,
        if nmr then 1 else 0) := by
  unfold MuxStack.clear_all
  rw [muxStack_write_spi_eq]
  rw [show (({ s with card_groups := s.card_groups.map MuxCardGroup.clear } :
      MuxStack).card_groups.length) = s.card_groups.length from by simp]

/-- A successful `clear_group`, characterized. -/
theorem muxStack_clear_group_ok (s : MuxStack) (group : Int) (nmr : Bool)
    (gi : Nat) (hgi : pyIndex s.card_groups.length (group - 1) = some gi) :
    s.clear_group group nmr =
      Except.ok
        (let groups1 := s.card_groups.set gi
          (s.card_groups.getD gi MuxCardGroup.dummy).clear
         ({ card_groups := groups1
            spi_data := (groups1.map (fun g => g.spi_data)).flatten },
           commitTrace groups1.length
             ((groups1.map (fun g => g.spi_data)).flatten) nmr,
           if nmr then 1 else 0)) := by
  unfold MuxStack.clear_group
  dsimp only
  rw [hgi]
  dsimp only
  rw [muxStack_write_spi_eq]

/-- A `clear_group` call that raises: state unchanged. -/
theorem muxStack_clear_group_error (s : MuxStack) (group : Int) (nmr : Bool)
    (hgi : pyIndex s.card_groups.length (group - 1) = none) :
    s.clear_group group nmr = Except.error s := by
  unfold MuxStack.clear_group
  dsimp only
  rw [hgi]

/-- A successful `set_ch`, characterized: the addressed group is replaced
by its own successful `set_ch` result, the commit runs, the Python value
is `None`. -/
theorem muxStack_set_ch_ok (s : MuxStack) (ch : Int × Int × Int × Int)
    (nmr : Bool) (gi : Nat) (g2 : MuxCardGroup)
    (hgi : pyIndex s.card_groups.length (ch.1 - 1) = some gi)
    (hg2 : (s.card_groups.getD gi MuxCardGroup.dummy).set_ch (ch.2.1 - 1)
      ch.2.2.1 ch.2.2.2 = Except.ok g2) :
    s.set_ch ch nmr =
      Except.ok
        (let groups1 := s.card_groups.set gi g2
         ({ card_groups := groups1
            spi_data := (groups1.map (fun g => g.spi_data)).flatten },
           commitTrace groups1.length
             ((groups1.map (fun g => g.spi_data)).flatten) nmr,
           none)) := by
  unfold MuxStack.set_ch
  dsimp only
  rw [hgi]
  dsimp only
  rw [hg2]
  dsimp only
  rw [muxStack_write_spi_eq]

/-- A `set_ch` call with an unresolvable group index: state unchanged. -/
theorem muxStack_set_ch_group_error (s : MuxStack) (ch : Int × Int × Int × Int)
    (nmr : Bool) (hgi : pyIndex s.card_groups.length (ch.1 - 1) = none) :
    s.set_ch ch nmr = Except.error s := by
  unfold MuxStack.set_ch
  dsimp only
  rw [hgi]

/-- A successful group `set_ch` resolves its card index and produces the
cleared-then-overwritten card list with its concatenation as the buffer. -/
theorem muxCardGroup_set_ch_ok_inv (g : MuxCardGroup)
    (h : g.cards.length = g.num_cards) (card in_p in_n : Int)
    (g2 : MuxCardGroup) (hok : g.set_ch card in_p in_n = Except.ok g2) :
    ∃ j, pyIndex g.num_cards card = some j ∧
      g2 = { num_cards := g.num_cards
             cards := (List.replicate g.num_cards MuxCard.clearImage).set j
               (MuxCard.set_ch in_p in_n)
             spi_data := ((List.replicate g.num_cards MuxCard.clearImage).set j
               (MuxCard.set_ch in_p in_n)).flatten } := by
  rw [muxCardGroup_set_ch_eq g h] at hok
  cases hj : pyIndex g.num_cards card with
  | none =>
    rw [hj] at hok
    exact absurd hok (by simp)
  | some j =>
    rw [hj] at hok
    simp only [Except.ok.injEq] at hok
    exact ⟨j, rfl, hok.symm⟩

/-- A successful `clear_group` resolves its group index. -/
theorem muxStack_clear_group_ok_inv (s : MuxStack) (group : Int) (nmr : Bool)
    (r : MuxStack × List Event × Nat)
    (h : s.clear_group group nmr = Except.ok r) :
    ∃ gi, pyIndex s.card_groups.length (group - 1) = some gi := by
  cases hgi : pyIndex s.card_groups.length (group - 1) with
  | none =>
    rw [muxStack_clear_group_error s group nmr hgi] at h
    exact absurd h (by simp)
  | some gi => exact ⟨gi, rfl⟩

/-- A successful stack `set_ch` resolves its group index and the addressed
group's own `set_ch` succeeds. -/
theorem muxStack_set_ch_ok_inv (s : MuxStack) (ch : Int × Int × Int × Int)
    (nmr : Bool) (r : MuxStack × List Event × Option Nat)
    (h : s.set_ch ch nmr = Except.ok r) :
    ∃ gi g2, pyIndex s.card_groups.length (ch.1 - 1) = some gi ∧
      (s.card_groups.getD gi MuxCardGroup.dummy).set_ch (ch.2.1 - 1)
        ch.2.2.1 ch.2.2.2 = Except.ok g2 := by
  cases hgi : pyIndex s.card_groups.length (ch.1 - 1) with
  | none =>
    rw [muxStack_set_ch_group_error s ch nmr hgi] at h
    exact absurd h (by simp)
  | some gi =>
    cases hg2 : (s.card_groups.getD gi MuxCardGroup.dummy).set_ch (ch.2.1 - 1)
        ch.2.2.1 ch.2.2.2 with
    | error g1 =>
      unfold MuxStack.set_ch at h
      dsimp only at h
      rw [hgi] at h
      dsimp only at h
      rw [hg2] at h
      exact absurd h (by simp)
    | ok g2 => exact ⟨gi, g2, rfl, hg2⟩

/-! ### The claims -/

/-- C2: for every `positive_pin` in `[1, 20]` with `negative_pin = 0`, the
per-card encoder produces byte 2 equal to `0x08` (odd pin) or `0x04`
(even pin), the 5-entry table bit at index `(p-1)/2` in byte 0 for pins
1–10 or at index `(p-11)/2` in byte 1 for pins 11–20, and leaves the
remaining byte zero. -/
theorem muxCard_set_ch_single_ended (p : Int) (h1 : 1 ≤ p) (h2 : p ≤ 20) :
    MuxCard.set_ch p 0 = singleEndedSpecImage p := by
  interval_cases p <;> rfl

/-- Witness for C2 at `positive_pin = 5`. -/
theorem muxCard_set_ch_single_ended_witness :
    (1 : Int) ≤ 5 ∧ (5 : Int) ≤ 20 ∧
      MuxCard.set_ch 5 0 = singleEndedSpecImage 5 :=
  ⟨by decide, by decide, muxCard_set_ch_single_ended 5 (by decide) (by decide)⟩

/-- C3: for every odd `positive_pin` in `[1, 19]` with
`negative_pin = positive_pin + 1`, the per-card encoder produces byte 2
equal to `0x10` and exactly one table bit, in byte 0 for pins 1–10 or in
byte 1 for pins 11–19, the remaining byte zero. -/
theorem muxCard_set_ch_differential (p : Int) (h1 : 1 ≤ p) (h2 : p ≤ 19)
    (h3 : Int.emod p 2 = 1) :
    MuxCard.set_ch p (p + 1) = differentialSpecImage p := by
  interval_cases p <;> first | rfl | exact absurd h3 (by decide)

/-- Witness for C3 at `positive_pin = 13`. -/
theorem muxCard_set_ch_differential_witness :
    (1 : Int) ≤ 13 ∧ (13 : Int) ≤ 19 ∧ Int.emod 13 2 = 1 ∧
      MuxCard.set_ch 13 14 = differentialSpecImage 13 :=
  ⟨by decide, by decide, by decide,
    muxCard_set_ch_differential 13 (by decide) (by decide) (by decide)⟩

/-- C4: for `positive_pin = 21` and every `negative_pin`, the per-card
encoder produces exactly `[0x00, 0x02, 0x00]`; this branch is tested first,
so it takes priority over all other patterns. -/
theorem muxCard_set_ch_current (n : Int) :
    MuxCard.set_ch 21 n = [0x00, 0x02, 0x00] := by
  rfl

/-- C5: every pin pair matching none of the three recognized patterns
(current-sense, differential, single-ended) yields the all-zero image, and
the encoder signals no error (it is a total function into `List Nat`). -/
theorem muxCard_set_ch_unrecognized (p n : Int)
    (h1 : ¬ p = 21)
    (h2 : ¬ (Int.emod p 2 = 1 ∧ n = p + 1 ∧ 1 ≤ p ∧ p ≤ 19))
    (h3 : ¬ (n = 0 ∧ 1 ≤ p ∧ p ≤ 20)) :
    MuxCard.set_ch p n = [0, 0, 0] := by
  unfold MuxCard.set_ch
  rw [if_neg h1, if_neg h2, if_neg h3]
  rfl

/-- Witness for C5 at the pairs `(0,0)`, `(2,1)` and `(20,19)`. -/
theorem muxCard_set_ch_unrecognized_witness :
    (¬ (0 : Int) = 21) ∧
      (¬ (Int.emod (0 : Int) 2 = 1 ∧ (0 : Int) = 0 + 1 ∧ 1 ≤ (0 : Int) ∧ (0 : Int) ≤ 19)) ∧
      (¬ ((0 : Int) = 0 ∧ 1 ≤ (0 : Int) ∧ (0 : Int) ≤ 20)) ∧
      MuxCard.set_ch 0 0 = [0, 0, 0] ∧
      MuxCard.set_ch 2 1 = [0, 0, 0] ∧
      MuxCard.set_ch 20 19 = [0, 0, 0] :=
  ⟨by decide, by decide, by decide,
    muxCard_set_ch_unrecognized 0 0 (by decide) (by decide) (by decide),
    muxCard_set_ch_unrecognized 2 1 (by decide) (by decide) (by decide),
    muxCard_set_ch_unrecognized 20 19 (by decide) (by decide) (by decide)⟩

/-- C1 (code bug): `clear_all` and `clear_group` do return 1 on a truthy
(non-fault) nMR sample and 0 on a falsy (fault) one, but `MuxStack.set_ch`
has no `return` statement: it discards `_write_spi()`'s value and evaluates
to `None` whatever the fault line reads, so it never returns the claimed
boolean. -/
theorem muxStack_set_ch_returns_nothing :
    ((demoStack.set_ch (1, 1, 5, 0) false).toOption.map (fun r => r.2.2)
        = some none) ∧
    ((demoStack.set_ch (1, 1, 5, 0) true).toOption.map (fun r => r.2.2)
        = some none) ∧
    (demoStack.clear_all false).2.2 = 0 ∧
    (demoStack.clear_all true).2.2 = 1 ∧
    ((demoStack.clear_group 1 false).toOption.map (fun r => r.2.2) = some 0) ∧
    ((demoStack.clear_group 1 true).toOption.map (fun r => r.2.2) = some 1) := by
  decide

/-- C6: on a well-formed group, `clear` zeroes every card image, and a
completed `set_ch` leaves at most one non-zero card image — every card
other than the resolved one holds the all-zero image. -/
theorem muxCardGroup_mutual_exclusion (g : MuxCardGroup)
    (h : g.cards.length = g.num_cards) :
    (∀ c ∈ g.clear.cards, c = [0, 0, 0]) ∧
    (∀ card in_p in_n g2, g.set_ch card in_p in_n = Except.ok g2 →
      g2.cards.countP (fun c => !(c = ([0, 0, 0] : List Nat))) ≤ 1 ∧
      ∀ j, pyIndex g.num_cards card = some j →
        ∀ k, k ≠ j → g2.cards.getD k [0, 0, 0] = [0, 0, 0]) := by
  constructor
  · intro c hc
    rw [muxCardGroup_clear_eq g h] at hc
    exact List.eq_of_mem_replicate hc
  · intro card in_p in_n g2 hok
    obtain ⟨j, hj, hg2⟩ := muxCardGroup_set_ch_ok_inv g h card in_p in_n g2 hok
    subst hg2
    constructor
    · apply list_countP_set_le_one
      intro c hc
      have hcz := List.eq_of_mem_replicate hc
      subst hcz
      rfl
    · intro j' hj' k hk
      rw [hj] at hj'
      injection hj' with hjj
      subst hjj
      exact list_getD_set_replicate g.num_cards _ k MuxCard.clearImage
        (MuxCard.set_ch in_p in_n) hk

/-- Witness for C6 on a three-card group, selecting card index 1. -/
theorem muxCardGroup_mutual_exclusion_witness :
    ((MuxCardGroup.init 3).cards.length = (MuxCardGroup.init 3).num_cards) ∧
    ((MuxCardGroup.init 3).set_ch 1 5 0 =
      Except.ok ⟨3, [[0, 0, 0], [16, 0, 8], [0, 0, 0]],
        [0, 0, 0, 16, 0, 8, 0, 0, 0]⟩) ∧
    (([[0, 0, 0], [16, 0, 8], [0, 0, 0]] : List (List Nat)).countP
        (fun c => !(c = ([0, 0, 0] : List Nat))) ≤ 1 ∧
      ∀ j, pyIndex (MuxCardGroup.init 3).num_cards 1 = some j →
        ∀ k, k ≠ j →
          (⟨3, [[0, 0, 0], [16, 0, 8], [0, 0, 0]],
            [0, 0, 0, 16, 0, 8, 0, 0, 0]⟩ : MuxCardGroup).cards.getD k [0, 0, 0]
            = [0, 0, 0]) :=
  ⟨by decide, by decide,
    (muxCardGroup_mutual_exclusion (MuxCardGroup.init 3) (by decide)).2
      1 5 0 ⟨3, [[0, 0, 0], [16, 0, 8], [0, 0, 0]], [0, 0, 0, 16, 0, 8, 0, 0, 0]⟩
      (by decide)⟩

/-- C7: after `clear_all`, and after every completed `clear_group` or
`set_ch`, the stack buffer is the concatenation of the group buffers in
declaration order, and every group buffer is the concatenation of its
cards' 3-byte images in declaration order. -/
theorem muxStack_payload_concat (s : MuxStack) (nmr : Bool)
    (hwf : s.wf) (hp : ∀ g ∈ s.card_groups, g.packedOK) :
    (s.clear_all nmr).1.payloadOK ∧
    (∀ group r, s.clear_group group nmr = Except.ok r → r.1.payloadOK) ∧
    (∀ ch r, s.set_ch ch nmr = Except.ok r → r.1.payloadOK) := by
  refine ⟨?_, ?_, ?_⟩
  · rw [muxStack_clear_all_eq]
    refine ⟨rfl, ?_⟩
    intro g hg
    rw [List.mem_map] at hg
    obtain ⟨g0, hg0, hgc⟩ := hg
    subst hgc
    rw [MuxCardGroup.packedOK, muxCardGroup_clear_eq g0 (hwf g0 hg0)]
    exact (flatten_replicate_clearImage g0.num_cards).symm
  · intro group r hok
    obtain ⟨gi, hgi⟩ := muxStack_clear_group_ok_inv s group nmr r hok
    rw [muxStack_clear_group_ok s group nmr gi hgi] at hok
    simp only [Except.ok.injEq] at hok
    subst hok
    refine ⟨rfl, ?_⟩
    intro g hg
    dsimp only at hg
    rcases List.mem_or_eq_of_mem_set hg with hmem | hceq
    · exact hp g hmem
    · subst hceq
      have hgim : s.card_groups.getD gi MuxCardGroup.dummy ∈ s.card_groups :=
        list_getD_mem _ _ _ (pyIndex_lt _ _ _ hgi)
      rw [MuxCardGroup.packedOK, muxCardGroup_clear_eq _ (hwf _ hgim)]
      exact (flatten_replicate_clearImage _).symm
  · intro ch r hok
    obtain ⟨gi, g2, hgi, hg2⟩ := muxStack_set_ch_ok_inv s ch nmr r hok
    rw [muxStack_set_ch_ok s ch nmr gi g2 hgi hg2] at hok
    simp only [Except.ok.injEq] at hok
    subst hok
    refine ⟨rfl, ?_⟩
    intro g hg
    dsimp only at hg
    rcases List.mem_or_eq_of_mem_set hg with hmem | hceq
    · exact hp g hmem
    · subst hceq
      have hgim : s.card_groups.getD gi MuxCardGroup.dummy ∈ s.card_groups :=
        list_getD_mem _ _ _ (pyIndex_lt _ _ _ hgi)
      obtain ⟨j, hj, hg2eq⟩ :=
        muxCardGroup_set_ch_ok_inv _ (hwf _ hgim) _ _ _ _ hg2
      subst hg2eq
      rfl

/-- Witness for C7 on the one-group, one-card demo stack: after
`clear_all`, after `clear_group(1)` and after `set_ch((1, 1, 21, 21))` the
payload invariant holds. -/
theorem muxStack_payload_concat_witness :
    demoOne.wf ∧ (∀ g ∈ demoOne.card_groups, g.packedOK) ∧
    (demoOne.clear_all true).1.payloadOK ∧
    (⟨[⟨1, [[0, 0, 0]], [0, 0, 0]⟩], [0, 0, 0]⟩ : MuxStack).payloadOK ∧
    (⟨[⟨1, [[0, 2, 0]], [0, 2, 0]⟩], [0, 2, 0]⟩ : MuxStack).payloadOK := by
  have hwf1 : demoOne.wf := by
    intro g hg
    rw [show demoOne.card_groups = [MuxCardGroup.init 1] from rfl,
      List.mem_singleton] at hg
    subst hg
    rfl
  have hp1 : ∀ g ∈ demoOne.card_groups, g.packedOK := by
    intro g hg
    rw [show demoOne.card_groups = [MuxCardGroup.init 1] from rfl,
      List.mem_singleton] at hg
    subst hg
    rfl
  have h := muxStack_payload_concat demoOne true hwf1 hp1
  exact ⟨hwf1, hp1, h.1,
    h.2.1 1 (⟨[⟨1, [[0, 0, 0]], [0, 0, 0]⟩], [0, 0, 0]⟩,
      [Event.rclk 0 0, Event.sleep 40, Event.spi [0, 0, 0], Event.rclk 0 1,
        Event.sleep 5, Event.nmr true], 1) (by decide),
    h.2.2 (1, 1, 21, 21) (⟨[⟨1, [[0, 2, 0]], [0, 2, 0]⟩], [0, 2, 0]⟩,
      [Event.rclk 0 0, Event.sleep 40, Event.spi [0, 2, 0], Event.rclk 0 1,
        Event.sleep 5, Event.nmr true], none) (by decide)⟩

/-- C8 (amended): on every mutating call the hardware collaborators run in
the fixed order of `commitTrace` — every latch writer to 0, one transfer of
the full assembled payload, every latch writer to 1, one non-retried
fault-sense sample — and that sample's value determines the returned result
of `clear_all` and `clear_group` (1 non-fault, 0 fault), while `set_ch`
computes the commit but returns `None`. -/
theorem muxStack_commit_protocol (s : MuxStack) (nmr : Bool) :
    ((s.clear_all nmr).2.1 =
        commitTrace (s.clear_all nmr).1.card_groups.length
          (s.clear_all nmr).1.spi_data nmr ∧
      (s.clear_all nmr).2.2 = (if nmr then 1 else 0)) ∧
    (∀ group r, s.clear_group group nmr = Except.ok r →
      r.2.1 = commitTrace r.1.card_groups.length r.1.spi_data nmr ∧
      r.2.2 = (if nmr then 1 else 0)) ∧
    (∀ ch r, s.set_ch ch nmr = Except.ok r →
      r.2.1 = commitTrace r.1.card_groups.length r.1.spi_data nmr ∧
      r.2.2 = none) := by
  refine ⟨?_, ?_, ?_⟩
  · rw [muxStack_clear_all_eq]
    exact ⟨by simp, rfl⟩
  · intro group r hok
    obtain ⟨gi, hgi⟩ := muxStack_clear_group_ok_inv s group nmr r hok
    rw [muxStack_clear_group_ok s group nmr gi hgi] at hok
    simp only [Except.ok.injEq] at hok
    subst hok
    exact ⟨rfl, rfl⟩
  · intro ch r hok
    obtain ⟨gi, g2, hgi, hg2⟩ := muxStack_set_ch_ok_inv s ch nmr r hok
    rw [muxStack_set_ch_ok s ch nmr gi g2 hgi hg2] at hok
    simp only [Except.ok.injEq] at hok
    subst hok
    exact ⟨rfl, rfl⟩

/-- C8 (counterexample to the claim as stated): the fault-sense value does
not determine `set_ch`'s result — on a fault-free commit `set_ch` returns
`None`, not the success value 1 that `_write_spi` computed. -/
theorem muxStack_set_ch_result_not_fault_determined :
    ((demoStack.set_ch (1, 1, 5, 0) true).toOption.map (fun r => r.2.2)
        = some none) ∧
    ¬ ((demoStack.set_ch (1, 1, 5, 0) true).toOption.map (fun r => r.2.2)
        = some (some 1)) := by
  decide

/-- Witness for C8 on the one-group, one-card demo stack. -/
theorem muxStack_commit_protocol_witness :
    ((demoOne.clear_all true).2.1 =
        commitTrace (demoOne.clear_all true).1.card_groups.length
          (demoOne.clear_all true).1.spi_data true) ∧
    (demoOne.clear_group 1 true =
      Except.ok (⟨[⟨1, [[0, 0, 0]], [0, 0, 0]⟩], [0, 0, 0]⟩,
        [Event.rclk 0 0, Event.sleep 40, Event.spi [0, 0, 0], Event.rclk 0 1,
          Event.sleep 5, Event.nmr true], 1)) ∧
    ([Event.rclk 0 0, Event.sleep 40, Event.spi [0, 0, 0], Event.rclk 0 1,
        Event.sleep 5, Event.nmr true] = commitTrace 1 [0, 0, 0] true ∧
      (1 : Nat) = (if true then 1 else 0)) ∧
    (demoOne.set_ch (1, 1, 21, 21) true =
      Except.ok (⟨[⟨1, [[0, 2, 0]], [0, 2, 0]⟩], [0, 2, 0]⟩,
        [Event.rclk 0 0, Event.sleep 40, Event.spi [0, 2, 0], Event.rclk 0 1,
          Event.sleep 5, Event.nmr true], none)) ∧
    ([Event.rclk 0 0, Event.sleep 40, Event.spi [0, 2, 0], Event.rclk 0 1,
        Event.sleep 5, Event.nmr true] = commitTrace 1 [0, 2, 0] true ∧
      (none : Option Nat) = none) :=
  ⟨(muxStack_commit_protocol demoOne true).1.1, by decide,
    (muxStack_commit_protocol demoOne true).2.1 1
      (⟨[⟨1, [[0, 0, 0]], [0, 0, 0]⟩], [0, 0, 0]⟩,
        [Event.rclk 0 0, Event.sleep 40, Event.spi [0, 0, 0], Event.rclk 0 1,
          Event.sleep 5, Event.nmr true], 1) (by decide),
    by decide,
    (muxStack_commit_protocol demoOne true).2.2 (1, 1, 21, 21)
      (⟨[⟨1, [[0, 2, 0]], [0, 2, 0]⟩], [0, 2, 0]⟩,
        [Event.rclk 0 0, Event.sleep 40, Event.spi [0, 2, 0], Event.rclk 0 1,
          Event.sleep 5, Event.nmr true], none) (by decide)⟩

/-- C9 (counterexample): public index 0 is outside the 1-indexed configured
range at both levels, yet neither call fails.  `clear_group(0)` on the
two-group stack succeeds — `0 - 1 = -1` wraps Python-style to the last
group, leaving group 1's freshly selected buffer untouched — and
`set_ch((1, 0, 21, 21))` with card 0 also succeeds, silently installing the
selection on the last card of the group instead of raising. -/
theorem muxStack_index_zero_wraps :
    ((demoSelected.clear_group 0 true).toOption.isSome = true) ∧
    ((demoSelected.clear_group 0 true).toOption.map
        (fun r => (r.1.card_groups.getD 0 MuxCardGroup.dummy).spi_data)
      = some [0x10, 0x00, 0x08, 0x00, 0x00, 0x00]) ∧
    ((demoStack.set_ch (1, 0, 21, 21) true).toOption.isSome = true) ∧
    ((demoStack.set_ch (1, 0, 21, 21) true).toOption.map
        (fun r => (r.1.card_groups.getD 0 MuxCardGroup.dummy).cards)
      = some [[0, 0, 0], [0, 0x02, 0]]) := by
  decide

/-- A group `set_ch` whose card index does not resolve raises `IndexError`
carrying the group as already cleared by the preceding `self.clear()`. -/
theorem muxCardGroup_set_ch_error (g : MuxCardGroup)
    (h : g.cards.length = g.num_cards) (card in_p in_n : Int)
    (hc : pyIndex g.num_cards card = none) :
    g.set_ch card in_p in_n = Except.error g.clear := by
  rw [muxCardGroup_set_ch_eq g h, hc]

/-- C9 (amended): a group or card index whose 0-based resolution falls
outside Python's accepted range `[-n, n-1]` makes the operation fail with
an `IndexError`-style bounds-checked error and never wraps: an unresolvable
group index leaves the stack state unchanged, and an unresolvable card
index raises after the addressed group has been cleared, with every other
group's buffer untouched.  But any index that does resolve — including the
public index 0, which resolves to `-1` and counts from the end — is
silently accepted instead of failing. -/
theorem muxStack_index_out_of_range (s : MuxStack) (nmr : Bool) :
    (∀ group : Int, pyIndex s.card_groups.length (group - 1) = none →
      s.clear_group group nmr = Except.error s ∧
      ∀ card in_p in_n, s.set_ch (group, card, in_p, in_n) nmr = Except.error s) ∧
    (∀ group card in_p in_n gi,
      pyIndex s.card_groups.length (group - 1) = some gi →
      (s.card_groups.getD gi MuxCardGroup.dummy).cards.length
        = (s.card_groups.getD gi MuxCardGroup.dummy).num_cards →
      pyIndex (s.card_groups.getD gi MuxCardGroup.dummy).num_cards (card - 1)
        = none →
      s.set_ch (group, card, in_p, in_n) nmr =
        Except.error { s with
          card_groups := s.card_groups.set gi
            (s.card_groups.getD gi MuxCardGroup.dummy).clear }) ∧
    (∀ group gi, pyIndex s.card_groups.length (group - 1) = some gi →
      (s.clear_group group nmr).toOption.isSome = true) := by
  refine ⟨?_, ?_, ?_⟩
  · intro group h
    exact ⟨muxStack_clear_group_error s group nmr h,
      fun card in_p in_n =>
        muxStack_set_ch_group_error s (group, card, in_p, in_n) nmr h⟩
  · intro group card in_p in_n gi hgi hwfg hcard
    unfold MuxStack.set_ch
    dsimp only
    rw [hgi]
    dsimp only
    rw [muxCardGroup_set_ch_error _ hwfg (card - 1) in_p in_n hcard]
  · intro group gi hgi
    rw [muxStack_clear_group_ok s group nmr gi hgi]
    rfl

/-- Witness for the amended C9: group 5 is unresolvable on the two-group
demo stack (error, state unchanged); card 5 in group 1 of `demoSelected`
is unresolvable (error, the group cleared, the other group untouched);
and group 0 resolves to the last group, so `clear_group(0)` succeeds. -/
theorem muxStack_index_out_of_range_witness :
    (pyIndex demoStack.card_groups.length (5 - 1) = none) ∧
    demoStack.clear_group 5 true = Except.error demoStack ∧
    demoStack.set_ch (5, 1, 5, 0) true = Except.error demoStack ∧
    (pyIndex demoSelected.card_groups.length (1 - 1) = some 0) ∧
    ((demoSelected.card_groups.getD 0 MuxCardGroup.dummy).cards.length
      = (demoSelected.card_groups.getD 0 MuxCardGroup.dummy).num_cards) ∧
    (pyIndex (demoSelected.card_groups.getD 0 MuxCardGroup.dummy).num_cards
      (5 - 1) = none) ∧
    demoSelected.set_ch (1, 5, 7, 0) true =
      Except.error ⟨[⟨2, [[0, 0, 0], [0, 0, 0]], [0, 0, 0, 0, 0, 0]⟩,
        ⟨1, [[0, 0, 0]], [0, 0, 0]⟩], [16, 0, 8, 0, 0, 0, 0, 0, 0]⟩ ∧
    (pyIndex demoSelected.card_groups.length (0 - 1) = some 1) ∧
    (demoSelected.clear_group 0 true).toOption.isSome = true :=
  ⟨by decide,
    ((muxStack_index_out_of_range demoStack true).1 5 (by decide)).1,
    ((muxStack_index_out_of_range demoStack true).1 5 (by decide)).2 1 5 0,
    by decide, by decide, by decide,
    (muxStack_index_out_of_range demoSelected true).2.1 1 5 7 0 0
      (by decide) (by decide) (by decide),
    by decide,
    (muxStack_index_out_of_range demoSelected true).2.2 0 1 (by decide)⟩

/-- Length of a stack payload assembled from groups with 3-byte-per-card
buffers. -/
theorem stack_payload_length_of (gs : List MuxCardGroup)
    (hgs : ∀ g ∈ gs, g.spi_data.length = 3 * g.num_cards) :
    ((gs.map (fun g => g.spi_data)).flatten).length
      = 3 * (gs.map (fun g => g.num_cards)).sum := by
  induction gs with
  | nil => simp
  | cons a t ih =>
    have ha := hgs a (List.mem_cons_self a t)
    have ht := ih (fun g hg => hgs g (List.mem_cons_of_mem a hg))
    simp only [List.map_cons, List.flatten_cons, List.length_append,
      List.sum_cons, ha, ht]
    ring

/-- Replacing one element by one with the same measure keeps the summed
measure. -/
theorem list_sum_map_set (l : List α) (i : Nat) (x : α) (f : α → Nat) (d : α)
    (hi : i < l.length) (hx : f x = f (l.getD i d)) :
    ((l.set i x).map f).sum = (l.map f).sum := by
  induction l generalizing i with
  | nil => simp
  | cons a t ih =>
    cases i with
    | zero =>
      rw [List.getD_cons_zero] at hx
      simp [hx]
    | succ k =>
      rw [List.getD_cons_succ] at hx
      have hk : k < t.length := by simpa using hi
      simp only [List.set_cons_succ, List.map_cons, List.sum_cons]
      rw [ih k hk hx]

/-- C10: a freshly constructed group's buffer has length `3 * num_cards`;
`clear` and a completed `set_ch` keep a well-formed group's buffer at
`3 * num_cards` bytes; and the payload committed by `clear_all` and by
every completed `clear_group` or `set_ch` has length `3 *` the total
configured card count. -/
theorem muxStack_payload_length (s : MuxStack) (nmr : Bool) (hwf : s.wf)
    (hlen : ∀ g ∈ s.card_groups, g.spi_data.length = 3 * g.num_cards) :
    (∀ n, (MuxCardGroup.init n).spi_data.length = 3 * n) ∧
    (∀ g : MuxCardGroup, g.cards.length = g.num_cards →
      g.clear.spi_data.length = 3 * g.num_cards ∧
      ∀ card in_p in_n g2, g.set_ch card in_p in_n = Except.ok g2 →
        g2.spi_data.length = 3 * g.num_cards) ∧
    ((s.clear_all nmr).1.spi_data.length = 3 * s.totalCards) ∧
    (∀ group r, s.clear_group group nmr = Except.ok r →
      r.1.spi_data.length = 3 * s.totalCards) ∧
    (∀ ch r, s.set_ch ch nmr = Except.ok r →
      r.1.spi_data.length = 3 * s.totalCards) := by
  have hgroup : ∀ g : MuxCardGroup, g.cards.length = g.num_cards →
      g.clear.spi_data.length = 3 * g.num_cards ∧
      ∀ card in_p in_n g2, g.set_ch card in_p in_n = Except.ok g2 →
        g2.spi_data.length = 3 * g.num_cards := by
    intro g hg
    constructor
    · rw [muxCardGroup_clear_eq g hg]
      simp
    · intro card in_p in_n g2 hok
      obtain ⟨j, hj, hg2eq⟩ := muxCardGroup_set_ch_ok_inv g hg card in_p in_n g2 hok
      subst hg2eq
      dsimp only
      rw [flatten_length_three]
      · simp
      · intro c hc
        rcases List.mem_or_eq_of_mem_set hc with hmem | hceq
        · rw [List.eq_of_mem_replicate hmem]
          rfl
        · subst hceq
          exact muxCard_set_ch_length _ _
  refine ⟨?_, hgroup, ?_, ?_, ?_⟩
  · intro n
    simp [MuxCardGroup.init]
  · rw [muxStack_clear_all_eq]
    dsimp only
    rw [stack_payload_length_of]
    · congr 1
      rw [List.map_map]
      have hmc : s.card_groups.map ((fun g => g.num_cards) ∘ MuxCardGroup.clear)
          = s.card_groups.map (fun g => g.num_cards) :=
        List.map_congr_left (fun g hg => by
          show (MuxCardGroup.clear g).num_cards = g.num_cards
          rw [muxCardGroup_clear_eq g (hwf g hg)])
      rw [hmc]
      rfl
    · intro g hg
      rw [List.mem_map] at hg
      obtain ⟨g0, hg0, hgc⟩ := hg
      subst hgc
      have hnum : (MuxCardGroup.clear g0).num_cards = g0.num_cards := by
        rw [muxCardGroup_clear_eq g0 (hwf g0 hg0)]
      rw [hnum]
      exact (hgroup g0 (hwf g0 hg0)).1
  · intro group r hok
    obtain ⟨gi, hgi⟩ := muxStack_clear_group_ok_inv s group nmr r hok
    rw [muxStack_clear_group_ok s group nmr gi hgi] at hok
    simp only [Except.ok.injEq] at hok
    subst hok
    dsimp only
    have higi : gi < s.card_groups.length := pyIndex_lt _ _ _ hgi
    have hgim : s.card_groups.getD gi MuxCardGroup.dummy ∈ s.card_groups :=
      list_getD_mem _ _ _ higi
    rw [stack_payload_length_of]
    · congr 1
      rw [list_sum_map_set s.card_groups gi _ _ MuxCardGroup.dummy higi
        (by rw [muxCardGroup_clear_eq _ (hwf _ hgim)])]
      rfl
    · intro g hg
      rcases List.mem_or_eq_of_mem_set hg with hmem | hceq
      · exact hlen g hmem
      · subst hceq
        have hnum : (s.card_groups.getD gi MuxCardGroup.dummy).clear.num_cards
            = (s.card_groups.getD gi MuxCardGroup.dummy).num_cards := by
          rw [muxCardGroup_clear_eq _ (hwf _ hgim)]
        rw [hnum]
        exact (hgroup _ (hwf _ hgim)).1
  · intro ch r hok
    obtain ⟨gi, g2, hgi, hg2⟩ := muxStack_set_ch_ok_inv s ch nmr r hok
    rw [muxStack_set_ch_ok s ch nmr gi g2 hgi hg2] at hok
    simp only [Except.ok.injEq] at hok
    subst hok
    dsimp only
    have higi : gi < s.card_groups.length := pyIndex_lt _ _ _ hgi
    have hgim : s.card_groups.getD gi MuxCardGroup.dummy ∈ s.card_groups :=
      list_getD_mem _ _ _ higi
    have hg2num : g2.num_cards = (s.card_groups.getD gi MuxCardGroup.dummy).num_cards := by
      obtain ⟨j, hj, hg2eq⟩ :=
        muxCardGroup_set_ch_ok_inv _ (hwf _ hgim) _ _ _ _ hg2
      subst hg2eq
      rfl
    rw [stack_payload_length_of]
    · congr 1
      rw [list_sum_map_set s.card_groups gi _ _ MuxCardGroup.dummy higi
        (by exact hg2num)]
      rfl
    · intro g hg
      rcases List.mem_or_eq_of_mem_set hg with hmem | hceq
      · exact hlen g hmem
      · subst hceq
        rw [hg2num]
        exact (hgroup _ (hwf _ hgim)).2 _ _ _ _ hg2

/-- Witness for C10 on the two-group demo stack. -/
theorem muxStack_payload_length_witness :
    demoStack.wf ∧
    (∀ g ∈ demoStack.card_groups, g.spi_data.length = 3 * g.num_cards) ∧
    ((MuxCardGroup.init 4).spi_data.length = 3 * 4) ∧
    ((MuxCardGroup.init 2).clear.spi_data.length = 3 * (MuxCardGroup.init 2).num_cards) ∧
    ((⟨2, [[64, 0, 8], [0, 0, 0]], [64, 0, 8, 0, 0, 0]⟩ : MuxCardGroup).spi_data.length
      = 3 * (MuxCardGroup.init 2).num_cards) ∧
    ((demoStack.clear_all true).1.spi_data.length = 3 * demoStack.totalCards) ∧
    (([0, 0, 0, 0, 0, 0, 0, 0, 0] : List Nat).length = 3 * demoStack.totalCards) ∧
    (([16, 0, 8, 0, 0, 0, 0, 0, 0] : List Nat).length = 3 * demoStack.totalCards) := by
  have hwf2 : demoStack.wf := by
    intro g hg
    fin_cases hg <;> rfl
  have hlen2 : ∀ g ∈ demoStack.card_groups, g.spi_data.length = 3 * g.num_cards := by
    intro g hg
    fin_cases hg <;> rfl
  have h := muxStack_payload_length demoStack true hwf2 hlen2
  refine ⟨hwf2, hlen2, h.1 4, (h.2.1 (MuxCardGroup.init 2) rfl).1,
    (h.2.1 (MuxCardGroup.init 2) rfl).2 0 3 0
      ⟨2, [[64, 0, 8], [0, 0, 0]], [64, 0, 8, 0, 0, 0]⟩ (by decide),
    h.2.2.1,
    h.2.2.2.1 1
      (⟨[⟨2, [[0, 0, 0], [0, 0, 0]], [0, 0, 0, 0, 0, 0]⟩,
          ⟨1, [[0, 0, 0]], [0, 0, 0]⟩], [0, 0, 0, 0, 0, 0, 0, 0, 0]⟩,
        [Event.rclk 0 0, Event.rclk 1 0, Event.sleep 40,
          Event.spi [0, 0, 0, 0, 0, 0, 0, 0, 0], Event.rclk 0 1, Event.rclk 1 1,
          Event.sleep 5, Event.nmr true], 1) (by decide),
    h.2.2.2.2 (1, 1, 5, 0)
      (⟨[⟨2, [[16, 0, 8], [0, 0, 0]], [16, 0, 8, 0, 0, 0]⟩,
          ⟨1, [[0, 0, 0]], [0, 0, 0]⟩], [16, 0, 8, 0, 0, 0, 0, 0, 0]⟩,
        [Event.rclk 0 0, Event.rclk 1 0, Event.sleep 40,
          Event.spi [16, 0, 8, 0, 0, 0, 0, 0, 0], Event.rclk 0 1, Event.rclk 1 1,
          Event.sleep 5, Event.nmr true], none) (by decide)⟩
